import Mathlib

/-!
Shallow embedding of the DN funding-rate arbitrage backend.

The definitions below are translated from the TypeScript source:
- `src/backend/src/services/opportunityCalculator.ts` (OpportunityCalculator)
- the historical funding service (HistoricalFundingService)
- `src/backend/src/routes/opportunities.ts` (cache/refresh orchestration)

JavaScript numbers are modelled as rationals (ℚ), millisecond timestamps as
naturals (ℕ).  JavaScript `Map` objects are modelled as insertion-ordered
association lists (`jsMapSet` overwrites in place, `jsMapGet` finds the first
matching key; keys built via `jsMapSet` are unique, like a JS Map's).
`Array.prototype.sort` with comparator `(a, b) => b.netAPR - a.netAPR` is
modelled as the stable descending sort `List.insertionSort oppGE`, matching the
ECMAScript guarantee (sorted wrt the comparator, stable for ties).
-/

namespace DN

/-- The two venues, from shared/types.ts. -/
inductive Exchange where
  | lighter
  | hyperliquid
deriving DecidableEq

/-- FundingRate record from shared/types.ts; `periodHours` is optional there. -/
structure FundingRate where
  symbol : String
  exchange : Exchange
  rate : ℚ
  timestamp : ℕ
  periodHours : Option ℚ
deriving DecidableEq

/-- ArbitrageOpportunity record from shared/types.ts. -/
structure ArbitrageOpportunity where
  symbol : String
  longExchange : Exchange
  shortExchange : Exchange
  longFundingRate : ℚ
  shortFundingRate : ℚ
  netAPR : ℚ
  lastUpdated : ℕ
  dataStartDate : Option ℕ
deriving DecidableEq

/-- HistoricalFundingEntry record from shared/types.ts (periodHours required). -/
structure HistoricalFundingEntry where
  symbol : String
  exchange : Exchange
  rate : ℚ
  timestamp : ℕ
  periodHours : ℚ
deriving DecidableEq

/-- JavaScript `x || d` on an optional number: `undefined` and `0` are falsy. -/
def jsOrQ (x : Option ℚ) (d : ℚ) : ℚ :=
  match x with
  | none => d
  | some v => if v = 0 then d else v

/-- JS `Map.set`: overwrite in place if the key exists, else append. -/
def jsMapSet {α : Type} (m : List (String × α)) (k : String) (v : α) :
    List (String × α) :=
  if m.any (fun p => p.1 == k) then
    m.map (fun p => if p.1 == k then (k, v) else p)
  else
    m ++ [(k, v)]

/-- JS `Map.get`: value of the first (unique) entry with the key. -/
def jsMapGet {α : Type} (m : List (String × α)) (k : String) : Option α :=
  (m.find? (fun p => p.1 == k)).map (fun p => p.2)

/-- JS `toUpperCase()` modelled per character over the character sequence
(extensionally `String.toUpper`, written via `data` so it computes). -/
def strToUpper (s : String) : String := String.mk (s.data.map Char.toUpper)

/-- JS `startsWith(t)` modelled over the character sequence. -/
def strStartsWith (s t : String) : Bool := s.data.take t.data.length == t.data

/-- JS `substring(n)` modelled over the character sequence. -/
def strDrop (s : String) (n : ℕ) : String := String.mk (s.data.drop n)

/-- OpportunityCalculator.lighterToHyperliquidSymbol: turn a leading literal
"1000" into a leading uppercase "K" (realtime matching path). -/
def lighterToHyperliquidSymbol (s : String) : String :=
  if strStartsWith s "1000" then "K" ++ strDrop s 4 else s

/-- HistoricalFundingService.lighterToHyperliquidSymbol: same transform with a
lowercase "k" (the funding-history API requires lowercase). -/
def lighterToHyperliquidSymbolHistorical (s : String) : String :=
  if strStartsWith s "1000" then "k" ++ strDrop s 4 else s

/-- OpportunityCalculator.annualizeFundingRate:
rate * (24 / periodHours) * 365 * 100. -/
def annualizeFundingRate (rate : ℚ) (periodHours : ℚ) : ℚ :=
  rate * ((24 / periodHours) * 365) * 100

/-- Both services' normalizeToHourly: rate / periodHours. -/
def normalizeToHourly (rate : ℚ) (periodHours : ℚ) : ℚ :=
  rate / periodHours

/-- OpportunityCalculator.calculateNetAPR: annualize(shortRate - longRate)
with hourly period 1. -/
def calculateNetAPR (longRate shortRate : ℚ) : ℚ :=
  annualizeFundingRate (shortRate - longRate) 1

/-- The exact-match-then-transformed lookup both calculator loops perform on
the Hyperliquid map (`map.get(symbol)` then, failing that,
`map.get(lighterToHyperliquidSymbol(symbol))` when the transform changes the
symbol). -/
def lookupWithKTransform {α : Type} (m : List (String × α)) (symbol : String) :
    Option α :=
  match jsMapGet m symbol with
  | some v => some v
  | none =>
    let normalizedSymbol := lighterToHyperliquidSymbol symbol
    if normalizedSymbol ≠ symbol then jsMapGet m normalizedSymbol else none

/-- The direction choice both calculators make: compute netAPR both ways and
keep the direction with the higher value; `netAPR1 >= netAPR2` keeps
Lighter long / Hyperliquid short. -/
def chooseDirection (symbol : String) (lighterHourly hyperliquidHourly : ℚ)
    (lastUpdated : ℕ) (dataStartDate : Option ℕ) : ArbitrageOpportunity :=
  let netAPR1 := calculateNetAPR lighterHourly hyperliquidHourly
  let netAPR2 := calculateNetAPR hyperliquidHourly lighterHourly
  if netAPR2 ≤ netAPR1 then
    ⟨symbol, Exchange.lighter, Exchange.hyperliquid, lighterHourly,
      hyperliquidHourly, netAPR1, lastUpdated, dataStartDate⟩
  else
    ⟨symbol, Exchange.hyperliquid, Exchange.lighter, hyperliquidHourly,
      lighterHourly, netAPR2, lastUpdated, dataStartDate⟩

/-- The symbol-keyed maps calculateOpportunities builds from the two
funding-rate arrays (keys uppercased; later entries overwrite earlier). -/
def buildRateMap (rates : List FundingRate) : List (String × FundingRate) :=
  rates.foldl (fun m r => jsMapSet m (strToUpper r.symbol) r) []

/-- Loop state of calculateOpportunities: the processedSymbols set (as the
insertion-ordered list of added symbols) and the accumulated opportunities. -/
structure CalcState where
  processed : List String
  opps : List ArbitrageOpportunity

/-- One iteration of the calculateOpportunities loop over the Lighter map. -/
def processLighterEntry (hyperliquidMap : List (String × FundingRate))
    (st : CalcState) (entry : String × FundingRate) : CalcState :=
  match lookupWithKTransform hyperliquidMap entry.1 with
  | none => st
  | some hyperliquidRate =>
    if entry.1 ∈ st.processed then st
    else
      let processed := st.processed ++ [entry.1]
      let lighterHourly := normalizeToHourly entry.2.rate (jsOrQ entry.2.periodHours 8)
      let hyperliquidHourly :=
        normalizeToHourly hyperliquidRate.rate (jsOrQ hyperliquidRate.periodHours 1)
      if lighterHourly = 0 ∧ hyperliquidHourly = 0 then
        ⟨processed, st.opps⟩
      else
        ⟨processed,
          st.opps ++ [chooseDirection entry.1 lighterHourly hyperliquidHourly
            (max entry.2.timestamp hyperliquidRate.timestamp) none]⟩

/-- Sort relation of `sort((a, b) => b.netAPR - a.netAPR)`: descending netAPR. -/
def oppGE (a b : ArbitrageOpportunity) : Prop := b.netAPR ≤ a.netAPR

instance : DecidableRel oppGE :=
  fun a b => inferInstanceAs (Decidable (b.netAPR ≤ a.netAPR))

instance : IsTotal ArbitrageOpportunity oppGE :=
  ⟨fun a b => le_total b.netAPR a.netAPR⟩

instance : IsTrans ArbitrageOpportunity oppGE :=
  ⟨fun _ _ _ h1 h2 => le_trans h2 h1⟩

/-- The opportunity list calculateOpportunities accumulates before sorting. -/
def realtimeEmitted (lighterRates hyperliquidRates : List FundingRate) :
    List ArbitrageOpportunity :=
  ((buildRateMap lighterRates).foldl
    (processLighterEntry (buildRateMap hyperliquidRates)) ⟨[], []⟩).opps

/-- OpportunityCalculator.calculateOpportunities. -/
def calculateOpportunities (lighterRates hyperliquidRates : List FundingRate) :
    List ArbitrageOpportunity :=
  List.insertionSort oppGE (realtimeEmitted lighterRates hyperliquidRates)

/-- One iteration of the calculateOpportunitiesFromRates loop (no
processedSymbols set and no zero-rate skip on this path). -/
def fromRatesStep (hyperliquidRates : List (String × ℚ)) (timestamp : ℕ)
    (dataStartDates : Option (List (String × ℕ)))
    (opps : List ArbitrageOpportunity) (entry : String × ℚ) :
    List ArbitrageOpportunity :=
  match lookupWithKTransform hyperliquidRates entry.1 with
  | none => opps
  | some hyperliquidHourly =>
    opps ++ [chooseDirection entry.1 entry.2 hyperliquidHourly timestamp
      (dataStartDates.bind (fun m => jsMapGet m entry.1))]

/-- The opportunity list calculateOpportunitiesFromRates accumulates before
sorting. -/
def fromRatesEmitted (lighterRates hyperliquidRates : List (String × ℚ))
    (timestamp : ℕ) (dataStartDates : Option (List (String × ℕ))) :
    List ArbitrageOpportunity :=
  lighterRates.foldl (fromRatesStep hyperliquidRates timestamp dataStartDates) []

/-- OpportunityCalculator.calculateOpportunitiesFromRates. -/
def calculateOpportunitiesFromRates (lighterRates hyperliquidRates : List (String × ℚ))
    (timestamp : ℕ) (dataStartDates : Option (List (String × ℕ))) :
    List ArbitrageOpportunity :=
  List.insertionSort oppGE
    (fromRatesEmitted lighterRates hyperliquidRates timestamp dataStartDates)

/-! Historical funding service (HistoricalFundingService). -/

/-- HistoricalFundingService.annualizeFundingRate: hourly rate to APR percent,
using exactly 24 * 365 hourly periods per year. -/
def annualizeHourlyRate (hourlyRate : ℚ) : ℚ :=
  hourlyRate * (24 * 365) * 100

/-- The inline `reduce((sum, r) => sum + r, 0) / length` average. -/
def averageOf (l : List ℚ) : ℚ :=
  l.sum / (l.length : ℚ)

/-- HistoricalFundingService.calculateAverageNetAPR: per-exchange unweighted
mean of hourly-normalized entries (an empty side contributes average 0), then
the direction-signed net rate, annualized; `undefined` (`none`) only when both
entry lists are empty. -/
def calculateAverageNetAPR (hlEntries ltEntries : List HistoricalFundingEntry)
    (longExchange : Exchange) : Option ℚ :=
  if hlEntries.length = 0 ∧ ltEntries.length = 0 then none
  else
    let hlHourlyRates := hlEntries.map (fun e => normalizeToHourly e.rate e.periodHours)
    let ltHourlyRates := ltEntries.map (fun e => normalizeToHourly e.rate e.periodHours)
    let hlAvgHourly := if hlHourlyRates.length > 0 then averageOf hlHourlyRates else 0
    let ltAvgHourly := if ltHourlyRates.length > 0 then averageOf ltHourlyRates else 0
    let netHourlyRate :=
      if longExchange = Exchange.hyperliquid then ltAvgHourly - hlAvgHourly
      else hlAvgHourly - ltAvgHourly
    some (annualizeHourlyRate netHourlyRate)

/-- AverageRates record: per-exchange symbol-to-average maps plus the
per-symbol data-start timestamps. -/
structure AverageRates where
  lighter : List (String × ℚ)
  hyperliquid : List (String × ℚ)
  dataStartDates : List (String × ℕ)

/-- The in-window filter getAverageRatesForPeriod applies to raw history
(`e.timestamp >= startTime && e.timestamp <= endTime`). -/
def filterWindow (startTime endTime : ℕ) (l : List HistoricalFundingEntry) :
    List HistoricalFundingEntry :=
  l.filter (fun e => decide (startTime ≤ e.timestamp) && decide (e.timestamp ≤ endTime))

/-- JS `Math.min(...)` over the (nonempty) timestamp list of a history. -/
def minTimestamp (l : List HistoricalFundingEntry) : ℕ :=
  match l.map (fun e => e.timestamp) with
  | [] => 0
  | t :: ts => ts.foldl min t

/-- JS truthiness of the `earliestTimestamp` variable (`undefined` and `0`
are falsy). -/
def jsTruthyNat (x : Option ℕ) : Bool :=
  match x with
  | none => false
  | some v => v != 0

/-- The `earliestTimestamp = earliestTimestamp ? Math.max(earliestTimestamp,
candidate) : candidate` update in getAverageRatesForPeriod. -/
def updateEarliest (et : Option ℕ) (candidate : ℕ) : Option ℕ :=
  if jsTruthyNat et then some (max (et.getD 0) candidate) else some candidate

/-- One iteration of the getAverageRatesForPeriod symbol loop.  `fetched`
models `Promise.all` of the two getFundingHistory calls (the Hyperliquid call
uses the lowercase-k transformed symbol); `none` models a rejected fetch,
whose catch skips the symbol.  Hyperliquid is processed first, then Lighter,
exactly as in the source. -/
def processSymbolRates (startTime endTime : ℕ) (acc : AverageRates) (symbol : String)
    (fetched : Option (List HistoricalFundingEntry × List HistoricalFundingEntry)) :
    AverageRates :=
  match fetched with
  | none => acc
  | some (hlRaw, ltRaw) =>
    let hlHistory := filterWindow startTime endTime hlRaw
    let ltHistory := filterWindow startTime endTime ltRaw
    let et0 : Option ℕ := none
    let step1 :=
      if hlHistory.length > 0 then
        (jsMapSet acc.hyperliquid symbol
          (averageOf (hlHistory.map (fun e => normalizeToHourly e.rate e.periodHours))),
         updateEarliest et0 (minTimestamp hlHistory))
      else (acc.hyperliquid, et0)
    let step2 :=
      if ltHistory.length > 0 then
        (jsMapSet acc.lighter symbol
          (averageOf (ltHistory.map (fun e => normalizeToHourly e.rate e.periodHours))),
         updateEarliest step1.2 (minTimestamp ltHistory))
      else (acc.lighter, step1.2)
    let dataStartDates :=
      match step2.2 with
      | some t => jsMapSet acc.dataStartDates symbol t
      | none => acc.dataStartDates
    ⟨step2.1, step1.1, dataStartDates⟩

/-- The symbol loop of getAverageRatesForPeriod (fetching abstracted as a
function from symbol to optional pair of raw histories). -/
def getAverageRatesCore (startTime endTime : ℕ) (symbols : List String)
    (fetch : String → Option (List HistoricalFundingEntry × List HistoricalFundingEntry)) :
    AverageRates :=
  symbols.foldl (fun acc s => processSymbolRates startTime endTime acc s (fetch s))
    ⟨[], [], []⟩

/-! Cache/refresh orchestration (routes/opportunities.ts). -/

/-- Coin record from shared/types.ts. -/
structure Coin where
  symbol : String
  exchange : Exchange
deriving DecidableEq

/-- The value of one exchange client's getAllData call. -/
structure ExchangeData where
  coins : List Coin
  fundingRates : List FundingRate

/-- The fallback `{ coins: [], fundingRates: [] }` used for a rejected fetch. -/
def emptyExchangeData : ExchangeData := ⟨[], []⟩

/-- The four opportunity buckets (realtime, 7d, 30d, ytd). -/
structure OpportunitiesByPeriod where
  realtime : List ArbitrageOpportunity
  sevenDay : List ArbitrageOpportunity
  thirtyDay : List ArbitrageOpportunity
  ytd : List ArbitrageOpportunity

/-- The module-level mutable state of routes/opportunities.ts that the
realtime refresh touches. -/
structure RouteState where
  cachedOpportunities : OpportunitiesByPeriod
  lighterCoins : List Coin
  hyperliquidCoins : List Coin
  lastUpdate : ℕ

/-- The realtime cache TTL (60 seconds, in milliseconds). -/
def CACHE_TTL : ℕ := 60000

/-- refreshOpportunities: `Promise.allSettled` of the two getAllData calls
(`none` models a rejected fetch, replaced by empty data), then recompute the
realtime bucket and set `lastUpdate = Date.now()`.  The background historical
kick-off is not part of this state transition. -/
def refreshOpportunities (st : RouteState) (now : ℕ)
    (lighterResult hyperliquidResult : Option ExchangeData) : RouteState :=
  let lighterData := lighterResult.getD emptyExchangeData
  let hyperliquidData := hyperliquidResult.getD emptyExchangeData
  let realtimeOpportunities :=
    calculateOpportunities lighterData.fundingRates hyperliquidData.fundingRates
  { cachedOpportunities :=
      { st.cachedOpportunities with realtime := realtimeOpportunities },
    lighterCoins := lighterData.coins,
    hyperliquidCoins := hyperliquidData.coins,
    lastUpdate := now }

/-- The JSON body of `GET /opportunities`. -/
structure OpportunitiesResponse where
  opportunities : OpportunitiesByPeriod
  lastUpdated : ℕ
  lighterAvailable : Bool
  hyperliquidAvailable : Bool

/-- The response the route handler builds from the current cache
(availability flags are `coins.length > 0`). -/
def buildResponse (st : RouteState) : OpportunitiesResponse :=
  ⟨st.cachedOpportunities, st.lastUpdate,
    decide (0 < st.lighterCoins.length), decide (0 < st.hyperliquidCoins.length)⟩

/-- Event-loop state for concurrent readers of `GET /opportunities`: the
shared route state plus the number of refreshOpportunities invocations
currently suspended at their `await Promise.allSettled`. -/
structure SysState where
  route : RouteState
  inFlight : ℕ

/-- Atomic segments of a reader's handler, split at the await point.
`start now` runs the handler synchronously up to the staleness check: when
stale it enters refreshOpportunities and suspends at the fetch await; when
fresh it responds immediately without fetching.  `finish now lr hr` resumes a
suspended refresh with its fetch results and applies the cache update. -/
inductive ReaderEvent where
  | start (now : ℕ)
  | finish (now : ℕ) (lighterResult hyperliquidResult : Option ExchangeData)

/-- One event-loop step of the reader model. -/
def stepReader (s : SysState) (e : ReaderEvent) : SysState :=
  match e with
  | .start now =>
    if now - s.route.lastUpdate > CACHE_TTL then
      { s with inFlight := s.inFlight + 1 }
    else s
  | .finish now lr hr =>
    ⟨refreshOpportunities s.route now lr hr, s.inFlight - 1⟩

/-- Run a sequence of reader events. -/
def runReaders (s : SysState) (es : List ReaderEvent) : SysState :=
  es.foldl stepReader s

/-- The empty initial route state (all buckets empty, lastUpdate 0). -/
def initialRouteState : RouteState :=
  ⟨⟨[], [], [], []⟩, [], [], 0⟩

/-! Derived emission functions: what one loop iteration of each calculator
contributes, as an optional opportunity.  These are proof artifacts (the
loops are proved equal to `filterMap` over them), not separate translations. -/

/-- What one iteration of the calculateOpportunities loop emits for a Lighter
map entry (ignoring the processedSymbols bookkeeping, which never fires
because JS Map keys are unique). -/
def emitRealtime (hyperliquidMap : List (String × FundingRate))
    (entry : String × FundingRate) : Option ArbitrageOpportunity :=
  match lookupWithKTransform hyperliquidMap entry.1 with
  | none => none
  | some hyperliquidRate =>
    let lighterHourly := normalizeToHourly entry.2.rate (jsOrQ entry.2.periodHours 8)
    let hyperliquidHourly :=
      normalizeToHourly hyperliquidRate.rate (jsOrQ hyperliquidRate.periodHours 1)
    if lighterHourly = 0 ∧ hyperliquidHourly = 0 then none
    else some (chooseDirection entry.1 lighterHourly hyperliquidHourly
      (max entry.2.timestamp hyperliquidRate.timestamp) none)

/-- What one iteration of the calculateOpportunitiesFromRates loop emits. -/
def emitFromRates (hyperliquidRates : List (String × ℚ)) (timestamp : ℕ)
    (dataStartDates : Option (List (String × ℕ))) (entry : String × ℚ) :
    Option ArbitrageOpportunity :=
  match lookupWithKTransform hyperliquidRates entry.1 with
  | none => none
  | some hyperliquidHourly =>
    some (chooseDirection entry.1 entry.2 hyperliquidHourly timestamp
      (dataStartDates.bind (fun m => jsMapGet m entry.1)))

/-! Concrete inputs used by counterexamples and witnesses. -/

/-- A route state whose realtime bucket is nonempty (for the C1 refutation). -/
def c1PrevState : RouteState :=
  ⟨⟨[⟨"AAA", Exchange.lighter, Exchange.hyperliquid, 1, 2, 8760, 5, none⟩],
    [], [], []⟩,
   [⟨"AAA", Exchange.lighter⟩], [⟨"AAA", Exchange.hyperliquid⟩], 0⟩

/-- Lighter input for the C3 refutation: matched on both venues, both rates
exactly zero. -/
def c3Lighter : List FundingRate := [⟨"AAA", Exchange.lighter, 0, 5, some 8⟩]

/-- Hyperliquid input for the C3 refutation. -/
def c3Hyperliquid : List FundingRate := [⟨"AAA", Exchange.hyperliquid, 0, 6, some 1⟩]

/-- Lighter rate map for the C8 refutation: two symbols, equal spreads,
enumerated in non-alphabetical order. -/
def c8Lighter : List (String × ℚ) := [("B", 0), ("A", 0)]

/-- Hyperliquid rate map for the C8 refutation. -/
def c8Hyperliquid : List (String × ℚ) := [("B", 1), ("A", 1)]

/-- The opportunity the calculator emits for "B" on the C8 input. -/
def c8OppB : ArbitrageOpportunity :=
  ⟨"B", Exchange.lighter, Exchange.hyperliquid, 0, 1, 876000, 0, none⟩

/-- The opportunity the calculator emits for "A" on the C8 input. -/
def c8OppA : ArbitrageOpportunity :=
  ⟨"A", Exchange.lighter, Exchange.hyperliquid, 0, 1, 876000, 0, none⟩

end DN

namespace DN

/-! Helper lemmas. -/

/-- The two directional net APRs are exact algebraic negatives. -/
theorem calculateNetAPR_neg (a b : ℚ) :
    calculateNetAPR b a = -calculateNetAPR a b := by
  unfold calculateNetAPR annualizeFundingRate
  ring

/-- Looking a symbol up in an empty map yields nothing. -/
theorem lookupWithKTransform_nil {α : Type} (s : String) :
    lookupWithKTransform ([] : List (String × α)) s = none := by
  unfold lookupWithKTransform jsMapGet
  simp

/-- With an empty Hyperliquid map, one calculator iteration changes nothing. -/
theorem processLighterEntry_nil (st : CalcState) (e : String × FundingRate) :
    processLighterEntry [] st e = st := by
  unfold processLighterEntry
  rw [lookupWithKTransform_nil]

/-- With an empty Hyperliquid rate list the whole realtime loop emits
nothing. -/
theorem realtimeEmitted_nil_right (L : List FundingRate) :
    realtimeEmitted L [] = [] := by
  unfold realtimeEmitted
  have key : ∀ (entries : List (String × FundingRate)) (st : CalcState),
      entries.foldl (processLighterEntry (buildRateMap [])) st = st := by
    intro entries
    induction entries with
    | nil => intro st; rfl
    | cons e es ih =>
      intro st
      rw [List.foldl_cons, show buildRateMap [] = [] from rfl,
        processLighterEntry_nil]
      exact ih st
  rw [key]

/-- calculateOpportunities with an empty Hyperliquid side returns no
opportunities. -/
theorem calculateOpportunities_nil_right (L : List FundingRate) :
    calculateOpportunities L [] = [] := by
  unfold calculateOpportunities
  rw [realtimeEmitted_nil_right]
  rfl

/-- calculateOpportunities with an empty Lighter side returns no
opportunities. -/
theorem calculateOpportunities_nil_left (H : List FundingRate) :
    calculateOpportunities [] H = [] := rfl

/-! C4. -/

/-- C4: for all rates a and b, netAPR(a,b) = -netAPR(b,a), where
netAPR(long, short) = (short - long) * 24 * 365 * 100 (calculateNetAPR
annualizes the hourly spread with period 1). -/
theorem C4_netAPR_antisymmetry (a b : ℚ) :
    calculateNetAPR a b = -calculateNetAPR b a := by
  unfold calculateNetAPR annualizeFundingRate
  ring

/-! C1. -/

/-- C1 counterexample: starting from a state whose realtime bucket is
nonempty, a refresh in which BOTH upstream fetches fail (both allSettled
results rejected, modelled as `none`) replaces the realtime list with the
empty list and advances lastUpdate to the current time, contradicting the
claim that the data is left untouched and the timestamp does not advance. -/
theorem C1_counterexample :
    c1PrevState.cachedOpportunities.realtime ≠ []
    ∧ (refreshOpportunities c1PrevState 100000 none none).cachedOpportunities.realtime = []
    ∧ c1PrevState.lastUpdate = 0
    ∧ (refreshOpportunities c1PrevState 100000 none none).lastUpdate = 100000 := by
  refine ⟨?_, rfl, rfl, rfl⟩
  decide

/-- C1 amended: when both exchange fetches fail, refreshOpportunities does
NOT leave the bucket untouched: Promise.allSettled absorbs the rejections
into empty data, so the realtime bucket is replaced by the empty list and
lastUpdate is set to the current time. -/
theorem C1_amended (st : RouteState) (now : ℕ) :
    (refreshOpportunities st now none none).cachedOpportunities.realtime = []
    ∧ (refreshOpportunities st now none none).lastUpdate = now :=
  ⟨rfl, rfl⟩

/-! C2. -/

/-- C2 counterexample: from a stale initial state, two readers that both
pass the staleness check before either refresh completes each start their
own refresh, so two refreshes for the realtime bucket are in flight at
once — the claimed per-bucket in-flight guard does not exist on this path. -/
theorem C2_counterexample :
    (runReaders ⟨initialRouteState, 0⟩
      [ReaderEvent.start 100000, ReaderEvent.start 100000]).inFlight = 2 := by
  decide

/-- C2 amended: a read while the realtime bucket is FRESH
(now - lastUpdate < 60s TTL) performs no upstream fetch and changes nothing;
but a read while the bucket is STALE always starts a new refresh — even when
another refresh is already in flight — because the realtime read path has no
per-bucket in-flight flag (and the reader then awaits that refresh rather
than returning the stale data without waiting). -/
theorem C2_amended (s : SysState) (now : ℕ) :
    (now - s.route.lastUpdate < CACHE_TTL → stepReader s (ReaderEvent.start now) = s)
    ∧ (CACHE_TTL < now - s.route.lastUpdate →
        (stepReader s (ReaderEvent.start now)).inFlight = s.inFlight + 1) := by
  constructor
  · intro h
    simp only [stepReader]
    rw [if_neg]
    omega
  · intro h
    simp only [stepReader]
    rw [if_pos h]

/-- C2 witness: the amended statement applied at concrete states: a fresh
read at time 0 is the identity, and a stale read at time 100000 on top of an
already-suspended refresh brings the in-flight count to 2. -/
theorem C2_witness :
    ((0 : ℕ) - (⟨initialRouteState, 0⟩ : SysState).route.lastUpdate < CACHE_TTL
      ∧ stepReader ⟨initialRouteState, 0⟩ (ReaderEvent.start 0) = ⟨initialRouteState, 0⟩)
    ∧ (CACHE_TTL < (100000 : ℕ) - (⟨initialRouteState, 1⟩ : SysState).route.lastUpdate
      ∧ (stepReader ⟨initialRouteState, 1⟩ (ReaderEvent.start 100000)).inFlight = 1 + 1) :=
  ⟨⟨by decide, (C2_amended ⟨initialRouteState, 0⟩ 0).1 (by decide)⟩,
   ⟨by decide, (C2_amended ⟨initialRouteState, 1⟩ 100000).2 (by decide)⟩⟩

end DN

namespace DN

/-! C9. -/

/-- C9: when exactly one exchange fetch fails during a refresh (rejected
result modelled as `none`) and the other succeeds with a nonempty coin list,
the read path still produces a well-formed response: the failed venue's
availability flag is false, the succeeding venue's flag is true, and the
realtime opportunity list is empty because no cross-venue match is possible.
(The model is a total function, so no exception can surface.) -/
theorem C9_one_venue_down (st : RouteState) (now : ℕ) (ld hd : ExchangeData) :
    (hd.coins ≠ [] →
      (buildResponse (refreshOpportunities st now none (some hd))).lighterAvailable = false
      ∧ (buildResponse (refreshOpportunities st now none (some hd))).hyperliquidAvailable = true
      ∧ (buildResponse (refreshOpportunities st now none (some hd))).opportunities.realtime = [])
    ∧ (ld.coins ≠ [] →
      (buildResponse (refreshOpportunities st now (some ld) none)).hyperliquidAvailable = false
      ∧ (buildResponse (refreshOpportunities st now (some ld) none)).lighterAvailable = true
      ∧ (buildResponse (refreshOpportunities st now (some ld) none)).opportunities.realtime = []) := by
  constructor
  · intro h
    refine ⟨rfl, ?_, rfl⟩
    show decide (0 < hd.coins.length) = true
    simpa [List.length_pos] using h
  · intro h
    refine ⟨rfl, ?_, ?_⟩
    · show decide (0 < ld.coins.length) = true
      simpa [List.length_pos] using h
    · show calculateOpportunities ld.fundingRates [] = []
      exact calculateOpportunities_nil_right _
  

/-- C9 witness: the theorem applied with a concrete succeeding Hyperliquid
fetch (one coin, one funding rate) and a failed Lighter fetch. -/
theorem C9_witness :
    (⟨[⟨"BTC", Exchange.hyperliquid⟩],
      [⟨"BTC", Exchange.hyperliquid, 1, 7, some 1⟩]⟩ : ExchangeData).coins ≠ []
    ∧ ((buildResponse (refreshOpportunities initialRouteState 5 none
          (some ⟨[⟨"BTC", Exchange.hyperliquid⟩],
            [⟨"BTC", Exchange.hyperliquid, 1, 7, some 1⟩]⟩))).lighterAvailable = false
      ∧ (buildResponse (refreshOpportunities initialRouteState 5 none
          (some ⟨[⟨"BTC", Exchange.hyperliquid⟩],
            [⟨"BTC", Exchange.hyperliquid, 1, 7, some 1⟩]⟩))).hyperliquidAvailable = true
      ∧ (buildResponse (refreshOpportunities initialRouteState 5 none
          (some ⟨[⟨"BTC", Exchange.hyperliquid⟩],
            [⟨"BTC", Exchange.hyperliquid, 1, 7, some 1⟩]⟩))).opportunities.realtime = []) :=
  ⟨by decide,
   (C9_one_venue_down initialRouteState 5 emptyExchangeData
      ⟨[⟨"BTC", Exchange.hyperliquid⟩],
        [⟨"BTC", Exchange.hyperliquid, 1, 7, some 1⟩]⟩).1 (by decide)⟩

end DN

namespace DN

/-! Map lemmas. -/

/-- Overwriting an existing key makes lookup of that key return the new
value. -/
theorem jsMapGet_overwrite {α : Type} (k : String) (v : α) :
    ∀ (m : List (String × α)), m.any (fun p => p.1 == k) = true →
      jsMapGet (m.map (fun p => if p.1 == k then (k, v) else p)) k = some v := by
  intro m
  induction m with
  | nil => intro h; simp at h
  | cons p t ih =>
    intro h
    rw [List.map_cons]
    by_cases hp : (p.1 == k) = true
    · rw [if_pos hp]
      unfold jsMapGet
      rw [List.find?_cons_of_pos _ (by simp)]
      rfl
    · rw [if_neg hp]
      unfold jsMapGet at ih ⊢
      rw [List.find?_cons_of_neg _ (by simpa using hp)]
      apply ih
      simp only [List.any_cons, Bool.or_eq_true] at h
      rcases h with h | h
      · exact absurd h hp
      · exact h

/-- Appending a new key makes lookup of that key return its value, when the
key was absent. -/
theorem jsMapGet_append_fresh {α : Type} (k : String) (v : α) :
    ∀ (m : List (String × α)), m.any (fun p => p.1 == k) = false →
      jsMapGet (m ++ [(k, v)]) k = some v := by
  intro m
  induction m with
  | nil =>
    intro _
    unfold jsMapGet
    rw [List.nil_append, List.find?_cons_of_pos _ (by simp)]
    rfl
  | cons p t ih =>
    intro h
    simp only [List.any_cons, Bool.or_eq_false_iff] at h
    rw [List.cons_append]
    unfold jsMapGet at ih ⊢
    rw [List.find?_cons_of_neg _ (by simp [h.1])]
    exact ih h.2

/-- `jsMapSet` followed by `jsMapGet` at the same key yields the set value. -/
theorem jsMapGet_jsMapSet_self {α : Type} (m : List (String × α)) (k : String) (v : α) :
    jsMapGet (jsMapSet m k v) k = some v := by
  unfold jsMapSet
  by_cases h : m.any (fun p => p.1 == k) = true
  · rw [if_pos h]
    exact jsMapGet_overwrite k v m h
  · rw [if_neg h]
    exact jsMapGet_append_fresh k v m (by rwa [Bool.not_eq_true] at h)

/-- A successful `jsMapGet` exhibits a matching entry of the map. -/
theorem jsMapGet_eq_some_mem {α : Type} {m : List (String × α)} {k : String} {v : α}
    (h : jsMapGet m k = some v) : (k, v) ∈ m := by
  unfold jsMapGet at h
  cases hf : m.find? (fun p => p.1 == k) with
  | none => rw [hf] at h; cases h
  | some q =>
    rw [hf] at h
    have hpk := List.find?_some hf
    have hmem : q ∈ m := List.mem_of_find?_eq_some hf
    have h2 : q.2 = v := by simpa using h
    have h1 : q.1 = k := by simpa using hpk
    have : q = (k, v) := by
      cases q
      simp_all
    rwa [this] at hmem

end DN

namespace DN

/-! Facts about the direction choice. -/

/-- The chosen opportunity carries the instrument's symbol. -/
theorem chooseDirection_symbol (s : String) (a b : ℚ) (t : ℕ) (d : Option ℕ) :
    (chooseDirection s a b t d).symbol = s := by
  simp only [chooseDirection]
  split <;> rfl

/-- The chosen opportunity carries the supplied dataStartDate. -/
theorem chooseDirection_dataStartDate (s : String) (a b : ℚ) (t : ℕ) (d : Option ℕ) :
    (chooseDirection s a b t d).dataStartDate = d := by
  simp only [chooseDirection]
  split <;> rfl

/-- The chosen netAPR is the larger of the two directional net APRs. -/
theorem chooseDirection_netAPR (s : String) (a b : ℚ) (t : ℕ) (d : Option ℕ) :
    (chooseDirection s a b t d).netAPR
      = max (calculateNetAPR a b) (calculateNetAPR b a) := by
  simp only [chooseDirection]
  split
  case isTrue h => exact (max_eq_left h).symm
  case isFalse h => exact (max_eq_right (le_of_not_le h)).symm

/-- The chosen long and short venues always differ. -/
theorem chooseDirection_long_ne_short (s : String) (a b : ℚ) (t : ℕ) (d : Option ℕ) :
    (chooseDirection s a b t d).longExchange
      ≠ (chooseDirection s a b t d).shortExchange := by
  simp only [chooseDirection]
  split <;> simp

/-- On a tie the Lighter-long direction is chosen. -/
theorem chooseDirection_tie (s : String) (a b : ℚ) (t : ℕ) (d : Option ℕ)
    (h : calculateNetAPR a b = calculateNetAPR b a) :
    (chooseDirection s a b t d).longExchange = Exchange.lighter := by
  simp only [chooseDirection]
  rw [if_pos (le_of_eq h.symm)]

/-- The chosen long/short hourly rates are the two inputs in one order. -/
theorem chooseDirection_rates (s : String) (a b : ℚ) (t : ℕ) (d : Option ℕ) :
    ((chooseDirection s a b t d).longFundingRate = a
      ∧ (chooseDirection s a b t d).shortFundingRate = b)
    ∨ ((chooseDirection s a b t d).longFundingRate = b
      ∧ (chooseDirection s a b t d).shortFundingRate = a) := by
  simp only [chooseDirection]
  split
  · exact Or.inl ⟨rfl, rfl⟩
  · exact Or.inr ⟨rfl, rfl⟩

/-- The chosen netAPR is never negative (max of two exact negatives). -/
theorem chooseDirection_netAPR_nonneg (s : String) (a b : ℚ) (t : ℕ) (d : Option ℕ) :
    0 ≤ (chooseDirection s a b t d).netAPR := by
  rw [chooseDirection_netAPR]
  rcases le_total 0 (calculateNetAPR a b) with h | h
  · exact le_max_of_le_left h
  · refine le_max_of_le_right ?_
    rw [calculateNetAPR_neg]
    exact neg_nonneg.mpr h

/-! The two calculator loops compute `filterMap` of their per-entry
emissions. -/

/-- One FromRates iteration appends exactly its emission. -/
theorem fromRatesStep_eq (HR : List (String × ℚ)) (ts : ℕ)
    (dsd : Option (List (String × ℕ))) (opps : List ArbitrageOpportunity)
    (e : String × ℚ) :
    fromRatesStep HR ts dsd opps e = opps ++ (emitFromRates HR ts dsd e).toList := by
  unfold fromRatesStep emitFromRates
  cases h : lookupWithKTransform HR e.1 <;> simp [h]

/-- Folding the FromRates loop is filterMap of the emissions. -/
theorem foldl_fromRatesStep (HR : List (String × ℚ)) (ts : ℕ)
    (dsd : Option (List (String × ℕ))) :
    ∀ (LR : List (String × ℚ)) (init : List ArbitrageOpportunity),
      LR.foldl (fromRatesStep HR ts dsd) init
        = init ++ LR.filterMap (emitFromRates HR ts dsd) := by
  intro LR
  induction LR with
  | nil => intro init; simp
  | cons e es ih =>
    intro init
    rw [List.foldl_cons, fromRatesStep_eq, ih, List.filterMap_cons]
    cases h : emitFromRates HR ts dsd e <;> simp [h]

/-- The pre-sort FromRates list is the filterMap of the emissions. -/
theorem fromRatesEmitted_eq_filterMap (LR HR : List (String × ℚ)) (ts : ℕ)
    (dsd : Option (List (String × ℕ))) :
    fromRatesEmitted LR HR ts dsd = LR.filterMap (emitFromRates HR ts dsd) := by
  unfold fromRatesEmitted
  rw [foldl_fromRatesStep]
  simp

end DN

namespace DN

/-! The realtime loop as a filterMap (the processedSymbols set never blocks
an entry because JS Map keys are unique). -/

/-- One realtime iteration on an unprocessed entry appends exactly its
emission and extends the processed set by at most the entry's key. -/
theorem foldl_processLighterEntry (H : List (String × FundingRate)) :
    ∀ (entries : List (String × FundingRate)) (st : CalcState),
      (entries.map Prod.fst).Nodup →
      (∀ s ∈ entries.map Prod.fst, s ∉ st.processed) →
      (entries.foldl (processLighterEntry H) st).opps
        = st.opps ++ entries.filterMap (emitRealtime H) := by
  intro entries
  induction entries with
  | nil => intro st _ _; simp
  | cons e es ih =>
    intro st hnodup hdisj
    have hmemproc : e.1 ∉ st.processed := hdisj e.1 (by simp)
    rw [List.map_cons] at hnodup
    have hkeyne : e.1 ∉ es.map Prod.fst := (List.nodup_cons.mp hnodup).1
    have hnodup' : (es.map Prod.fst).Nodup := (List.nodup_cons.mp hnodup).2
    rw [List.foldl_cons, List.filterMap_cons]
    cases hl : lookupWithKTransform H e.1 with
    | none =>
      have hstep : processLighterEntry H st e = st := by
        simp only [processLighterEntry, hl]
      have hemit : emitRealtime H e = none := by
        simp only [emitRealtime, hl]
      rw [hstep, hemit]
      exact ih st hnodup' (fun s hs => hdisj s (by simp [hs]))
    | some hr =>
      by_cases hz : normalizeToHourly e.2.rate (jsOrQ e.2.periodHours 8) = 0
          ∧ normalizeToHourly hr.rate (jsOrQ hr.periodHours 1) = 0
      · have hstep : processLighterEntry H st e = ⟨st.processed ++ [e.1], st.opps⟩ := by
          simp only [processLighterEntry, hl]
          rw [if_neg hmemproc, if_pos hz]
        have hemit : emitRealtime H e = none := by
          simp only [emitRealtime, hl]
          rw [if_pos hz]
        rw [hstep, hemit]
        refine ih _ hnodup' ?_
        intro s hs
        simp only [List.mem_append, List.mem_singleton]
        rintro (hin | rfl)
        · exact hdisj s (by simp [hs]) hin
        · exact hkeyne hs
      · have hstep : processLighterEntry H st e
            = ⟨st.processed ++ [e.1],
               st.opps ++ [chooseDirection e.1
                 (normalizeToHourly e.2.rate (jsOrQ e.2.periodHours 8))
                 (normalizeToHourly hr.rate (jsOrQ hr.periodHours 1))
                 (max e.2.timestamp hr.timestamp) none]⟩ := by
          simp only [processLighterEntry, hl]
          rw [if_neg hmemproc, if_neg hz]
        have hemit : emitRealtime H e
            = some (chooseDirection e.1
                (normalizeToHourly e.2.rate (jsOrQ e.2.periodHours 8))
                (normalizeToHourly hr.rate (jsOrQ hr.periodHours 1))
                (max e.2.timestamp hr.timestamp) none) := by
          simp only [emitRealtime, hl]
          rw [if_neg hz]
        rw [hstep, hemit]
        have hdisj' : ∀ s ∈ es.map Prod.fst, s ∉ st.processed ++ [e.1] := by
          intro s hs
          simp only [List.mem_append, List.mem_singleton]
          rintro (hin | rfl)
          · exact hdisj s (by simp [hs]) hin
          · exact hkeyne hs
        rw [ih _ hnodup' hdisj']
        simp

end DN

namespace DN

/-! Key uniqueness of built maps and membership transfers. -/

/-- jsMapSet preserves distinctness of keys. -/
theorem nodupKeys_jsMapSet {α : Type} {m : List (String × α)}
    (h : (m.map Prod.fst).Nodup) (k : String) (v : α) :
    ((jsMapSet m k v).map Prod.fst).Nodup := by
  unfold jsMapSet
  by_cases hany : m.any (fun p => p.1 == k) = true
  · rw [if_pos hany]
    have heq : (m.map (fun p => if p.1 == k then (k, v) else p)).map Prod.fst
        = m.map Prod.fst := by
      rw [List.map_map]
      apply List.map_congr_left
      intro p _
      by_cases hpk : (p.1 == k) = true
      · have hk : p.1 = k := beq_iff_eq.mp hpk
        simp [Function.comp, hpk, hk]
      · simp [Function.comp, hpk]
    rw [heq]
    exact h
  · rw [if_neg hany]
    rw [List.map_append]
    have hk : k ∉ m.map Prod.fst := by
      intro hmem
      rcases List.mem_map.mp hmem with ⟨p, hp, hpk⟩
      exact hany (List.any_eq_true.mpr ⟨p, hp, by simp [hpk]⟩)
    simp [List.nodup_append, h, hk]

/-- The realtime map has distinct (uppercased) keys, like a JS Map. -/
theorem nodup_keys_buildRateMap (rates : List FundingRate) :
    ((buildRateMap rates).map Prod.fst).Nodup := by
  unfold buildRateMap
  have key : ∀ (l : List FundingRate) (m : List (String × FundingRate)),
      (m.map Prod.fst).Nodup →
      ((l.foldl (fun m r => jsMapSet m (strToUpper r.symbol) r) m).map Prod.fst).Nodup := by
    intro l
    induction l with
    | nil => intro m h; exact h
    | cons r rs ih =>
      intro m h
      rw [List.foldl_cons]
      exact ih _ (nodupKeys_jsMapSet h _ _)
  exact key rates [] (by simp)

/-- The pre-sort realtime list is the filterMap of the emissions. -/
theorem realtimeEmitted_eq_filterMap (L H : List FundingRate) :
    realtimeEmitted L H = (buildRateMap L).filterMap (emitRealtime (buildRateMap H)) := by
  unfold realtimeEmitted
  rw [foldl_processLighterEntry (buildRateMap H) (buildRateMap L) ⟨[], []⟩
    (nodup_keys_buildRateMap L) (by intro s _ hs; cases hs)]
  simp

/-- Members of the sorted realtime output come from emissions. -/
theorem mem_calculateOpportunities {L H : List FundingRate} {o : ArbitrageOpportunity}
    (h : o ∈ calculateOpportunities L H) :
    ∃ e, e ∈ buildRateMap L ∧ emitRealtime (buildRateMap H) e = some o := by
  unfold calculateOpportunities at h
  have h2 := (List.perm_insertionSort oppGE _).mem_iff.mp h
  rw [realtimeEmitted_eq_filterMap] at h2
  simpa using List.mem_filterMap.mp h2

/-- Members of the sorted FromRates output come from emissions. -/
theorem mem_calculateOpportunitiesFromRates {LR HR : List (String × ℚ)} {ts : ℕ}
    {dsd : Option (List (String × ℕ))} {o : ArbitrageOpportunity}
    (h : o ∈ calculateOpportunitiesFromRates LR HR ts dsd) :
    ∃ e, e ∈ LR ∧ emitFromRates HR ts dsd e = some o := by
  unfold calculateOpportunitiesFromRates at h
  have h2 := (List.perm_insertionSort oppGE _).mem_iff.mp h
  rw [fromRatesEmitted_eq_filterMap] at h2
  simpa using List.mem_filterMap.mp h2

/-- Shape of a successful realtime emission. -/
theorem emitRealtime_shape {H : List (String × FundingRate)}
    {e : String × FundingRate} {o : ArbitrageOpportunity}
    (h : emitRealtime H e = some o) :
    ∃ hr, lookupWithKTransform H e.1 = some hr
      ∧ o = chooseDirection e.1
          (normalizeToHourly e.2.rate (jsOrQ e.2.periodHours 8))
          (normalizeToHourly hr.rate (jsOrQ hr.periodHours 1))
          (max e.2.timestamp hr.timestamp) none
      ∧ ¬(normalizeToHourly e.2.rate (jsOrQ e.2.periodHours 8) = 0
          ∧ normalizeToHourly hr.rate (jsOrQ hr.periodHours 1) = 0) := by
  unfold emitRealtime at h
  cases hl : lookupWithKTransform H e.1 with
  | none => rw [hl] at h; cases h
  | some hr =>
    rw [hl] at h
    simp only [] at h
    by_cases hz : normalizeToHourly e.2.rate (jsOrQ e.2.periodHours 8) = 0
        ∧ normalizeToHourly hr.rate (jsOrQ hr.periodHours 1) = 0
    · rw [if_pos hz] at h
      cases h
    · rw [if_neg hz] at h
      exact ⟨hr, rfl, (Option.some.inj h).symm, hz⟩

/-- Shape of a successful FromRates emission. -/
theorem emitFromRates_shape {HR : List (String × ℚ)} {ts : ℕ}
    {dsd : Option (List (String × ℕ))} {e : String × ℚ} {o : ArbitrageOpportunity}
    (h : emitFromRates HR ts dsd e = some o) :
    ∃ q, lookupWithKTransform HR e.1 = some q
      ∧ o = chooseDirection e.1 e.2 q ts (dsd.bind (fun m => jsMapGet m e.1)) := by
  unfold emitFromRates at h
  cases hl : lookupWithKTransform HR e.1 with
  | none => rw [hl] at h; cases h
  | some q =>
    rw [hl] at h
    exact ⟨q, rfl, (Option.some.inj h).symm⟩

end DN

namespace DN

/-! Filtering the emitted list down to one instrument. -/

/-- A successful realtime emission carries the entry's key as its symbol. -/
theorem emitRealtime_symbol {H : List (String × FundingRate)}
    {e : String × FundingRate} {o : ArbitrageOpportunity}
    (h : emitRealtime H e = some o) : o.symbol = e.1 := by
  rcases emitRealtime_shape h with ⟨hr, _, rfl, _⟩
  exact chooseDirection_symbol ..

/-- A successful FromRates emission carries the entry's key as its symbol. -/
theorem emitFromRates_symbol {HR : List (String × ℚ)} {ts : ℕ}
    {dsd : Option (List (String × ℕ))} {e : String × ℚ} {o : ArbitrageOpportunity}
    (h : emitFromRates HR ts dsd e = some o) : o.symbol = e.1 := by
  rcases emitFromRates_shape h with ⟨q, _, rfl⟩
  exact chooseDirection_symbol ..

/-- Entries with other keys contribute nothing with symbol `s`. -/
theorem filterMap_filter_key_nil {α : Type}
    (emit : (String × α) → Option ArbitrageOpportunity)
    (hsym : ∀ e o, emit e = some o → o.symbol = e.1) (s : String)
    (es : List (String × α)) (hs : s ∉ es.map Prod.fst) :
    (es.filterMap emit).filter (fun o => o.symbol == s) = [] := by
  rw [List.filter_eq_nil_iff]
  intro o ho
  rcases List.mem_filterMap.mp ho with ⟨e, he, hemit⟩
  have hmm := hsym e o hemit
  simp only [hmm]
  intro hbeq
  exact hs (beq_iff_eq.mp hbeq ▸ List.mem_map.mpr ⟨e, he, rfl⟩)

/-- With distinct keys, filtering the emitted list to one key yields exactly
that key's emission. -/
theorem filterMap_filter_key {α : Type}
    (emit : (String × α) → Option ArbitrageOpportunity)
    (hsym : ∀ e o, emit e = some o → o.symbol = e.1) (s : String) :
    ∀ (entries : List (String × α)), (entries.map Prod.fst).Nodup →
      ∀ v, (s, v) ∈ entries →
      (entries.filterMap emit).filter (fun o => o.symbol == s)
        = (emit (s, v)).toList := by
  intro entries
  induction entries with
  | nil => intro _ v hv; cases hv
  | cons e es ih =>
    intro hnodup v hv
    rw [List.map_cons] at hnodup
    have hkeyne : e.1 ∉ es.map Prod.fst := (List.nodup_cons.mp hnodup).1
    have hnodup' : (es.map Prod.fst).Nodup := (List.nodup_cons.mp hnodup).2
    rw [List.filterMap_cons]
    rcases List.mem_cons.mp hv with heq | hv'
    · subst heq
      have htail : (es.filterMap emit).filter (fun o => o.symbol == s) = [] := by
        apply filterMap_filter_key_nil emit hsym s es
        intro hmem
        exact hkeyne hmem
      cases he : emit (s, v) with
      | none => simpa [he] using htail
      | some o =>
        have hos : o.symbol = s := hsym _ _ he
        simp only [he, Option.toList]
        rw [List.filter_cons_of_pos (by simp [hos])]
        rw [htail]
    · have hes : s ∈ es.map Prod.fst := List.mem_map.mpr ⟨(s, v), hv', rfl⟩
      have hne : e.1 ≠ s := fun hh => hkeyne (hh ▸ hes)
      cases he : emit e with
      | none => simpa [he] using ih hnodup' v hv'
      | some o =>
        have hos : o.symbol = e.1 := hsym _ _ he
        simp only [he]
        rw [List.filter_cons_of_neg (by simp [hos, hne])]
        exact ih hnodup' v hv'
end DN

namespace DN

/-! C10. -/

/-- C10: every ArbitrageOpportunity emitted by calculateOpportunities or
calculateOpportunitiesFromRates has netAPR ≥ 0, because the selected
direction is the maximum of two values that are exact negatives of each
other. -/
theorem C10_netAPR_nonneg :
    (∀ (L H : List FundingRate) (o : ArbitrageOpportunity),
      o ∈ calculateOpportunities L H → 0 ≤ o.netAPR)
    ∧ (∀ (LR HR : List (String × ℚ)) (ts : ℕ) (dsd : Option (List (String × ℕ)))
        (o : ArbitrageOpportunity),
      o ∈ calculateOpportunitiesFromRates LR HR ts dsd → 0 ≤ o.netAPR) := by
  constructor
  · intro L H o h
    rcases mem_calculateOpportunities h with ⟨e, _, hemit⟩
    rcases emitRealtime_shape hemit with ⟨hr, _, rfl, _⟩
    exact chooseDirection_netAPR_nonneg ..
  · intro LR HR ts dsd o h
    rcases mem_calculateOpportunitiesFromRates h with ⟨e, _, hemit⟩
    rcases emitFromRates_shape hemit with ⟨q, _, rfl⟩
    exact chooseDirection_netAPR_nonneg ..

unseal Rat.mul Rat.inv Rat.add Rat.sub in
/-- C10 witness: a concrete member of a concrete FromRates output has
nonnegative netAPR, via the theorem. -/
theorem C10_witness :
    (⟨"A", Exchange.lighter, Exchange.hyperliquid, 0, 1, 876000, 3, none⟩ : ArbitrageOpportunity)
        ∈ calculateOpportunitiesFromRates [("A", 0)] [("A", 1)] 3 none
    ∧ 0 ≤ (⟨"A", Exchange.lighter, Exchange.hyperliquid, 0, 1, 876000, 3, none⟩ : ArbitrageOpportunity).netAPR :=
  ⟨by decide, C10_netAPR_nonneg.2 [("A", 0)] [("A", 1)] 3 none _ (by decide)⟩

/-! C5. -/

/-- C5: if both exchanges report a normalized hourly rate of exactly 0 for a
matched instrument, calculateOpportunities omits the instrument from the
realtime result set (the output filtered to that symbol is empty, and more
generally no output opportunity ever has both hourly rates zero), while
calculateOpportunitiesFromRates applies no such suppression: a symbol whose
two average rates are both 0 still yields an opportunity (with netAPR 0) in
historical output. -/
theorem C5_zero_rate_suppression :
    (∀ (L H : List FundingRate) (s : String) (lr hr : FundingRate),
      jsMapGet (buildRateMap L) s = some lr →
      lookupWithKTransform (buildRateMap H) s = some hr →
      normalizeToHourly lr.rate (jsOrQ lr.periodHours 8) = 0 →
      normalizeToHourly hr.rate (jsOrQ hr.periodHours 1) = 0 →
      (calculateOpportunities L H).filter (fun o => o.symbol == s) = [])
    ∧ (∀ (L H : List FundingRate) (o : ArbitrageOpportunity),
      o ∈ calculateOpportunities L H →
      ¬(o.longFundingRate = 0 ∧ o.shortFundingRate = 0))
    ∧ (∀ (LR HR : List (String × ℚ)) (ts : ℕ) (dsd : Option (List (String × ℕ)))
        (s : String), (s, (0 : ℚ)) ∈ LR → lookupWithKTransform HR s = some 0 →
      ∃ o, o ∈ calculateOpportunitiesFromRates LR HR ts dsd
        ∧ o.symbol = s ∧ o.longFundingRate = 0 ∧ o.shortFundingRate = 0
        ∧ o.netAPR = 0) := by
  refine ⟨?_, ?_, ?_⟩
  · intro L H s lr hr hL hH hlz hhz
    have hmem : (s, lr) ∈ buildRateMap L := jsMapGet_eq_some_mem hL
    have hemit : emitRealtime (buildRateMap H) (s, lr) = none := by
      simp only [emitRealtime, hH]
      rw [if_pos ⟨hlz, hhz⟩]
    have hfil : (realtimeEmitted L H).filter (fun o => o.symbol == s) = [] := by
      rw [realtimeEmitted_eq_filterMap,
        filterMap_filter_key (emitRealtime (buildRateMap H))
          (fun e o h => emitRealtime_symbol h) s (buildRateMap L)
          (nodup_keys_buildRateMap L) lr hmem, hemit]
      rfl
    have hperm := (List.perm_insertionSort oppGE (realtimeEmitted L H)).filter
      (fun o => o.symbol == s)
    rw [hfil] at hperm
    exact hperm.eq_nil
  · intro L H o h hzero
    rcases mem_calculateOpportunities h with ⟨e, _, hemit⟩
    rcases emitRealtime_shape hemit with ⟨hr, _, rfl, hnz⟩
    rcases chooseDirection_rates e.1
        (normalizeToHourly e.2.rate (jsOrQ e.2.periodHours 8))
        (normalizeToHourly hr.rate (jsOrQ hr.periodHours 1))
        (max e.2.timestamp hr.timestamp) none with ⟨h1, h2⟩ | ⟨h1, h2⟩
    · exact hnz ⟨h1.symm.trans hzero.1, h2.symm.trans hzero.2⟩
    · exact hnz ⟨h2.symm.trans hzero.2, h1.symm.trans hzero.1⟩
  · intro LR HR ts dsd s hmem hlook
    have hemit : emitFromRates HR ts dsd (s, 0)
        = some (chooseDirection s 0 0 ts (dsd.bind (fun m => jsMapGet m s))) := by
      simp only [emitFromRates, hlook]
    have hcd : chooseDirection s 0 0 ts (dsd.bind (fun m => jsMapGet m s))
        = ⟨s, Exchange.lighter, Exchange.hyperliquid, 0, 0, calculateNetAPR 0 0, ts,
            dsd.bind (fun m => jsMapGet m s)⟩ := by
      simp only [chooseDirection]
      rw [if_pos (le_refl _)]
    have hzero : calculateNetAPR (0 : ℚ) 0 = 0 := by
      norm_num [calculateNetAPR, annualizeFundingRate]
    refine ⟨chooseDirection s 0 0 ts (dsd.bind (fun m => jsMapGet m s)), ?_, ?_, ?_, ?_, ?_⟩
    · unfold calculateOpportunitiesFromRates
      refine (List.perm_insertionSort oppGE _).mem_iff.mpr ?_
      rw [fromRatesEmitted_eq_filterMap]
      exact List.mem_filterMap.mpr ⟨(s, 0), hmem, hemit⟩
    · rw [hcd]
    · rw [hcd]
    · rw [hcd]
    · rw [hcd]
      exact hzero

unseal Rat.mul Rat.inv Rat.add Rat.sub in
/-- C5 witness: the FromRates half applied at a concrete both-zero symbol. -/
theorem C5_witness :
    ("AAA", (0 : ℚ)) ∈ [("AAA", (0 : ℚ))]
    ∧ lookupWithKTransform [("AAA", (0 : ℚ))] "AAA" = some 0
    ∧ ∃ o, o ∈ calculateOpportunitiesFromRates [("AAA", 0)] [("AAA", 0)] 9 none
        ∧ o.symbol = "AAA" ∧ o.longFundingRate = 0 ∧ o.shortFundingRate = 0
        ∧ o.netAPR = 0 :=
  ⟨by decide, by decide,
   C5_zero_rate_suppression.2.2 [("AAA", 0)] [("AAA", 0)] 9 none "AAA"
     (by decide) (by decide)⟩

end DN

namespace DN

/-! C3. -/

unseal Rat.mul Rat.inv Rat.add Rat.sub in
/-- C3 counterexample: the symbol "AAA" is present on both exchanges (exact
match in both maps), yet calculateOpportunities emits NO opportunity for it,
because both normalized hourly rates are exactly zero and the realtime path
skips such instruments; so "exactly one opportunity per instrument present
on both exchanges" fails as stated. -/
theorem C3_counterexample :
    jsMapGet (buildRateMap c3Lighter) "AAA"
      = some ⟨"AAA", Exchange.lighter, 0, 5, some 8⟩
    ∧ lookupWithKTransform (buildRateMap c3Hyperliquid) "AAA"
      = some ⟨"AAA", Exchange.hyperliquid, 0, 6, some 1⟩
    ∧ calculateOpportunities c3Lighter c3Hyperliquid = [] :=
  ⟨by decide, by decide, by decide⟩

/-- C3 amended: for every instrument present on both exchanges — except, in
the realtime path, instruments whose two normalized hourly rates are both
exactly 0 — the calculator emits exactly one ArbitrageOpportunity (the
output filtered to that symbol is a singleton); its netAPR is the larger of
the two directional net APRs, ties choose the Lighter-long direction, and
longExchange always differs from shortExchange.  The FromRates path needs no
zero-rate exception. -/
theorem C3_amended :
    (∀ (L H : List FundingRate) (s : String) (lr hr : FundingRate),
      jsMapGet (buildRateMap L) s = some lr →
      lookupWithKTransform (buildRateMap H) s = some hr →
      ¬(normalizeToHourly lr.rate (jsOrQ lr.periodHours 8) = 0
        ∧ normalizeToHourly hr.rate (jsOrQ hr.periodHours 1) = 0) →
      (calculateOpportunities L H).filter (fun o => o.symbol == s)
        = [chooseDirection s (normalizeToHourly lr.rate (jsOrQ lr.periodHours 8))
            (normalizeToHourly hr.rate (jsOrQ hr.periodHours 1))
            (max lr.timestamp hr.timestamp) none])
    ∧ (∀ (LR HR : List (String × ℚ)) (ts : ℕ) (dsd : Option (List (String × ℕ)))
        (s : String) (q q' : ℚ),
      (LR.map Prod.fst).Nodup →
      jsMapGet LR s = some q →
      lookupWithKTransform HR s = some q' →
      (calculateOpportunitiesFromRates LR HR ts dsd).filter (fun o => o.symbol == s)
        = [chooseDirection s q q' ts (dsd.bind (fun m => jsMapGet m s))])
    ∧ (∀ (s : String) (a b : ℚ) (t : ℕ) (d : Option ℕ),
        (chooseDirection s a b t d).netAPR
          = max (calculateNetAPR a b) (calculateNetAPR b a))
    ∧ (∀ (s : String) (a b : ℚ) (t : ℕ) (d : Option ℕ),
        calculateNetAPR a b = calculateNetAPR b a →
        (chooseDirection s a b t d).longExchange = Exchange.lighter)
    ∧ (∀ (s : String) (a b : ℚ) (t : ℕ) (d : Option ℕ),
        (chooseDirection s a b t d).longExchange
          ≠ (chooseDirection s a b t d).shortExchange) := by
  refine ⟨?_, ?_, chooseDirection_netAPR, chooseDirection_tie,
    chooseDirection_long_ne_short⟩
  · intro L H s lr hr hL hH hnz
    have hmem : (s, lr) ∈ buildRateMap L := jsMapGet_eq_some_mem hL
    have hemit : emitRealtime (buildRateMap H) (s, lr)
        = some (chooseDirection s (normalizeToHourly lr.rate (jsOrQ lr.periodHours 8))
            (normalizeToHourly hr.rate (jsOrQ hr.periodHours 1))
            (max lr.timestamp hr.timestamp) none) := by
      simp only [emitRealtime, hH]
      rw [if_neg hnz]
    have hfil : (realtimeEmitted L H).filter (fun o => o.symbol == s)
        = [chooseDirection s (normalizeToHourly lr.rate (jsOrQ lr.periodHours 8))
            (normalizeToHourly hr.rate (jsOrQ hr.periodHours 1))
            (max lr.timestamp hr.timestamp) none] := by
      rw [realtimeEmitted_eq_filterMap]
      rw [filterMap_filter_key (emitRealtime (buildRateMap H))
        (fun e o h => emitRealtime_symbol h) s (buildRateMap L)
        (nodup_keys_buildRateMap L) lr hmem]
      rw [hemit]
      rfl
    have hperm := (List.perm_insertionSort oppGE (realtimeEmitted L H)).filter
      (fun o => o.symbol == s)
    unfold calculateOpportunities
    exact List.perm_singleton.mp (hfil ▸ hperm)
  · intro LR HR ts dsd s q q' hnodup hL hH
    have hmem : (s, q) ∈ LR := jsMapGet_eq_some_mem hL
    have hemit : emitFromRates HR ts dsd (s, q)
        = some (chooseDirection s q q' ts (dsd.bind (fun m => jsMapGet m s))) := by
      simp only [emitFromRates, hH]
    have hfil : (fromRatesEmitted LR HR ts dsd).filter (fun o => o.symbol == s)
        = [chooseDirection s q q' ts (dsd.bind (fun m => jsMapGet m s))] := by
      rw [fromRatesEmitted_eq_filterMap]
      rw [filterMap_filter_key (emitFromRates HR ts dsd)
        (fun e o h => emitFromRates_symbol h) s LR hnodup q hmem]
      rw [hemit]
      rfl
    have hperm := (List.perm_insertionSort oppGE (fromRatesEmitted LR HR ts dsd)).filter
      (fun o => o.symbol == s)
    unfold calculateOpportunitiesFromRates
    exact List.perm_singleton.mp (hfil ▸ hperm)

unseal Rat.mul Rat.inv Rat.add Rat.sub in
/-- C3 witness: the realtime half applied at the spec's own worked example
(Lighter 0.0001 per 8h, Hyperliquid 0.00002 per 1h, both under symbol
"BTC"). -/
theorem C3_witness :
    (¬(normalizeToHourly ((1 : ℚ)/10000) (jsOrQ (some 8) 8) = 0
       ∧ normalizeToHourly ((2 : ℚ)/100000) (jsOrQ (some 1) 1) = 0))
    ∧ (calculateOpportunities [⟨"BTC", Exchange.lighter, 1/10000, 5, some 8⟩]
        [⟨"BTC", Exchange.hyperliquid, 2/100000, 6, some 1⟩]).filter
          (fun o => o.symbol == "BTC")
      = [chooseDirection "BTC" (normalizeToHourly ((1 : ℚ)/10000) (jsOrQ (some 8) 8))
          (normalizeToHourly ((2 : ℚ)/100000) (jsOrQ (some 1) 1)) (max 5 6) none] :=
  ⟨by decide,
   C3_amended.1 [⟨"BTC", Exchange.lighter, 1/10000, 5, some 8⟩]
     [⟨"BTC", Exchange.hyperliquid, 2/100000, 6, some 1⟩] "BTC"
     ⟨"BTC", Exchange.lighter, 1/10000, 5, some 8⟩
     ⟨"BTC", Exchange.hyperliquid, 2/100000, 6, some 1⟩
     (by decide) (by decide) (by decide)⟩

end DN

namespace DN

/-! C8. -/

unseal Rat.mul Rat.inv Rat.add Rat.sub in
/-- C8 counterexample: two instruments with equal netAPR, enumerated "B"
before "A"; the output keeps that enumeration order for the tie ("B" before
"A"), so the ordering among equal netAPRs is NOT a symbol-ascending
tiebreak. -/
theorem C8_counterexample :
    (calculateOpportunitiesFromRates c8Lighter c8Hyperliquid 0 none).map
        (fun o => o.symbol) = ["B", "A"]
    ∧ (calculateOpportunitiesFromRates c8Lighter c8Hyperliquid 0 none).map
        (fun o => o.netAPR) = [876000, 876000] :=
  ⟨by decide, by decide⟩

/-- C8 amended: the returned list is sorted by netAPR descending, and it is a
stable sort of the enumeration-order emission list: opportunities with equal
netAPR keep their relative enumeration order (not a symbol-ascending
tiebreak).  The output is still deterministic for identical inputs, because
the calculators are functions of their inputs and the sort is stable. -/
theorem C8_amended :
    (∀ (L H : List FundingRate),
      List.Sorted oppGE (calculateOpportunities L H)
      ∧ (calculateOpportunities L H).Perm (realtimeEmitted L H)
      ∧ (∀ a b : ArbitrageOpportunity, a.netAPR = b.netAPR →
          List.Sublist [a, b] (realtimeEmitted L H) →
          List.Sublist [a, b] (calculateOpportunities L H)))
    ∧ (∀ (LR HR : List (String × ℚ)) (ts : ℕ) (dsd : Option (List (String × ℕ))),
      List.Sorted oppGE (calculateOpportunitiesFromRates LR HR ts dsd)
      ∧ (calculateOpportunitiesFromRates LR HR ts dsd).Perm
          (fromRatesEmitted LR HR ts dsd)
      ∧ (∀ a b : ArbitrageOpportunity, a.netAPR = b.netAPR →
          List.Sublist [a, b] (fromRatesEmitted LR HR ts dsd) →
          List.Sublist [a, b] (calculateOpportunitiesFromRates LR HR ts dsd))) := by
  constructor
  · intro L H
    refine ⟨List.sorted_insertionSort oppGE _, List.perm_insertionSort oppGE _, ?_⟩
    intro a b hab hsub
    exact List.pair_sublist_insertionSort (show oppGE a b from le_of_eq hab.symm) hsub
  · intro LR HR ts dsd
    refine ⟨List.sorted_insertionSort oppGE _, List.perm_insertionSort oppGE _, ?_⟩
    intro a b hab hsub
    exact List.pair_sublist_insertionSort (show oppGE a b from le_of_eq hab.symm) hsub

unseal Rat.mul Rat.inv Rat.add Rat.sub in
/-- C8 witness: on the concrete tie input the output is sorted and the
equal-netAPR pair keeps its enumeration order (B then A). -/
theorem C8_witness :
    List.Sorted oppGE (calculateOpportunitiesFromRates c8Lighter c8Hyperliquid 0 none)
    ∧ c8OppB.netAPR = c8OppA.netAPR
    ∧ List.Sublist [c8OppB, c8OppA]
        (calculateOpportunitiesFromRates c8Lighter c8Hyperliquid 0 none) :=
  ⟨(C8_amended.2 c8Lighter c8Hyperliquid 0 none).1,
   by decide,
   (C8_amended.2 c8Lighter c8Hyperliquid 0 none).2.2 c8OppB c8OppA (by decide)
     (by rw [show fromRatesEmitted c8Lighter c8Hyperliquid 0 none = [c8OppB, c8OppA]
               from by decide])⟩

end DN

namespace DN

/-! C6. -/

unseal Rat.mul Rat.inv Rat.add Rat.sub in
/-- C6 counterexample: one Hyperliquid entry (hourly rate 0.001) and ZERO
Lighter entries.  The claim requires every historical path — including
calculateAverageNetAPR — to exclude the instrument when an exchange has no
entries; instead calculateAverageNetAPR treats the empty side as average 0
and returns an APR (0.001 * 8760 * 100 = 876), returning `none` only when
BOTH sides are empty. -/
theorem C6_counterexample :
    calculateAverageNetAPR [⟨"AAA", Exchange.hyperliquid, 1/1000, 100, 1⟩] []
      Exchange.lighter = some 876 := by
  decide

/-- C6 amended: on the getAverageRatesForPeriod path each exchange's average
is the unweighted arithmetic mean of its in-window entries normalized to
hourly by each entry's own periodHours, and an exchange with zero in-window
entries contributes no map entry (so the instrument is excluded from that
period's cross-venue results); but on the per-symbol APR path,
calculateAverageNetAPR returns `none` only when BOTH exchanges have zero
entries — with exactly one empty side it treats that side's average as 0 and
still returns a net APR. -/
theorem C6_amended :
    (∀ (startTime endTime : ℕ) (acc : AverageRates) (symbol : String)
        (hlRaw ltRaw : List HistoricalFundingEntry),
      (filterWindow startTime endTime ltRaw ≠ [] →
        jsMapGet (processSymbolRates startTime endTime acc symbol
            (some (hlRaw, ltRaw))).lighter symbol
          = some (averageOf ((filterWindow startTime endTime ltRaw).map
              (fun e => normalizeToHourly e.rate e.periodHours))))
      ∧ (filterWindow startTime endTime hlRaw ≠ [] →
        jsMapGet (processSymbolRates startTime endTime acc symbol
            (some (hlRaw, ltRaw))).hyperliquid symbol
          = some (averageOf ((filterWindow startTime endTime hlRaw).map
              (fun e => normalizeToHourly e.rate e.periodHours))))
      ∧ (filterWindow startTime endTime ltRaw = [] →
        (processSymbolRates startTime endTime acc symbol
            (some (hlRaw, ltRaw))).lighter = acc.lighter)
      ∧ (filterWindow startTime endTime hlRaw = [] →
        (processSymbolRates startTime endTime acc symbol
            (some (hlRaw, ltRaw))).hyperliquid = acc.hyperliquid))
    ∧ (∀ (hlEntries ltEntries : List HistoricalFundingEntry) (longExchange : Exchange),
        hlEntries ≠ [] → ltEntries ≠ [] →
        calculateAverageNetAPR hlEntries ltEntries longExchange
          = some (annualizeHourlyRate
              (if longExchange = Exchange.hyperliquid then
                averageOf (ltEntries.map (fun e => normalizeToHourly e.rate e.periodHours))
                  - averageOf (hlEntries.map (fun e => normalizeToHourly e.rate e.periodHours))
              else
                averageOf (hlEntries.map (fun e => normalizeToHourly e.rate e.periodHours))
                  - averageOf (ltEntries.map (fun e => normalizeToHourly e.rate e.periodHours)))))
    ∧ (∀ (hlEntries : List HistoricalFundingEntry) (longExchange : Exchange),
        hlEntries ≠ [] →
        calculateAverageNetAPR hlEntries [] longExchange
          = some (annualizeHourlyRate
              (if longExchange = Exchange.hyperliquid then
                -(averageOf (hlEntries.map (fun e => normalizeToHourly e.rate e.periodHours)))
              else
                averageOf (hlEntries.map (fun e => normalizeToHourly e.rate e.periodHours)))))
    ∧ (∀ (ltEntries : List HistoricalFundingEntry) (longExchange : Exchange),
        ltEntries ≠ [] →
        calculateAverageNetAPR [] ltEntries longExchange
          = some (annualizeHourlyRate
              (if longExchange = Exchange.hyperliquid then
                averageOf (ltEntries.map (fun e => normalizeToHourly e.rate e.periodHours))
              else
                -(averageOf (ltEntries.map (fun e => normalizeToHourly e.rate e.periodHours)))))) := by
  refine ⟨?_, ?_, ?_, ?_⟩
  · intro startTime endTime acc symbol hlRaw ltRaw
    refine ⟨?_, ?_, ?_, ?_⟩
    · intro hlt
      simp only [processSymbolRates]
      split_ifs with h1 h2 <;>
        first
          | (exact jsMapGet_jsMapSet_self ..)
          | (exact absurd (List.length_pos.mp (by assumption)) (by simp_all))
          | (exact absurd hlt (by simp_all [List.length_pos]))
    · intro hhl
      simp only [processSymbolRates]
      split_ifs with h1 <;>
        first
          | (exact jsMapGet_jsMapSet_self ..)
          | (exact absurd hhl (by simp_all [List.length_pos]))
    · intro hlt
      simp only [processSymbolRates]
      split_ifs with h1 h2 <;>
        first
          | rfl
          | (exact absurd hlt (by simp_all [List.length_pos]))
    · intro hhl
      simp only [processSymbolRates]
      split_ifs with h1 <;>
        first
          | rfl
          | (exact absurd hhl (by simp_all [List.length_pos]))
  · intro hlE ltE ex hhl hlt
    simp only [calculateAverageNetAPR]
    split_ifs <;>
      simp_all [List.length_pos, List.length_eq_zero, zero_sub, sub_zero]
  · intro hlE ex hhl
    simp only [calculateAverageNetAPR]
    split_ifs <;>
      simp_all [List.length_pos, List.length_eq_zero, zero_sub, sub_zero]
  · intro ltE ex hlt
    simp only [calculateAverageNetAPR]
    split_ifs <;>
      simp_all [List.length_pos, List.length_eq_zero, zero_sub, sub_zero]

/-- C6 witness: the amended statement applied at a concrete single-entry
Lighter history (mean stored) and at a concrete one-sided APR computation. -/
theorem C6_witness :
    (filterWindow 1 10 [⟨"AAA", Exchange.lighter, 1, 5, 8⟩] ≠ []
    ∧ jsMapGet (processSymbolRates 1 10 ⟨[], [], []⟩ "AAA"
        (some ([], [⟨"AAA", Exchange.lighter, 1, 5, 8⟩]))).lighter "AAA"
      = some (averageOf ((filterWindow 1 10 [⟨"AAA", Exchange.lighter, 1, 5, 8⟩]).map
          (fun e => normalizeToHourly e.rate e.periodHours))))
    ∧ (([⟨"AAA", Exchange.hyperliquid, 1, 5, 1⟩] : List HistoricalFundingEntry) ≠ []
    ∧ calculateAverageNetAPR [⟨"AAA", Exchange.hyperliquid, 1, 5, 1⟩] [] Exchange.lighter
      = some (annualizeHourlyRate
          (if Exchange.lighter = Exchange.hyperliquid then
            -(averageOf (([⟨"AAA", Exchange.hyperliquid, 1, 5, 1⟩] :
                List HistoricalFundingEntry).map
                (fun e => normalizeToHourly e.rate e.periodHours)))
          else
            averageOf (([⟨"AAA", Exchange.hyperliquid, 1, 5, 1⟩] :
                List HistoricalFundingEntry).map
                (fun e => normalizeToHourly e.rate e.periodHours))))) :=
  ⟨⟨by decide, (C6_amended.1 1 10 ⟨[], [], []⟩ "AAA" []
      [⟨"AAA", Exchange.lighter, 1, 5, 8⟩]).1 (by decide)⟩,
   ⟨by decide, C6_amended.2.2.1 [⟨"AAA", Exchange.hyperliquid, 1, 5, 1⟩]
      Exchange.lighter (by decide)⟩⟩

end DN

namespace DN

/-! C7. -/

/-- The earliest-timestamp update starting from `undefined` keeps the
candidate. -/
theorem updateEarliest_none (c : ℕ) : updateEarliest none c = some c := rfl

/-- The earliest-timestamp update on an existing value takes the max (the
JS zero-falsy branch coincides with `max 0 c = c`). -/
theorem updateEarliest_some (h c : ℕ) : updateEarliest (some h) c = some (max h c) := by
  unfold updateEarliest jsTruthyNat
  cases h with
  | zero => simp
  | succ n => simp

/-- C7: for an instrument with in-window entries on both exchanges, the
recorded dataStartDate equals max(earliest Hyperliquid entry timestamp,
earliest Lighter entry timestamp) — the later of the two venues' first
available data points — hence it is ≥ each venue's earliest in-window
timestamp; and calculateOpportunitiesFromRates passes the recorded map value
through unchanged onto every emitted opportunity (looked up at the
opportunity's symbol), so any dataStartDate present on an opportunity is
that recorded maximum. -/
theorem C7_dataStartDate :
    (∀ (startTime endTime : ℕ) (acc : AverageRates) (symbol : String)
        (hlRaw ltRaw : List HistoricalFundingEntry),
      filterWindow startTime endTime hlRaw ≠ [] →
      filterWindow startTime endTime ltRaw ≠ [] →
      jsMapGet (processSymbolRates startTime endTime acc symbol
          (some (hlRaw, ltRaw))).dataStartDates symbol
        = some (max (minTimestamp (filterWindow startTime endTime hlRaw))
                    (minTimestamp (filterWindow startTime endTime ltRaw)))
      ∧ minTimestamp (filterWindow startTime endTime hlRaw)
          ≤ max (minTimestamp (filterWindow startTime endTime hlRaw))
                (minTimestamp (filterWindow startTime endTime ltRaw))
      ∧ minTimestamp (filterWindow startTime endTime ltRaw)
          ≤ max (minTimestamp (filterWindow startTime endTime hlRaw))
                (minTimestamp (filterWindow startTime endTime ltRaw)))
    ∧ (∀ (LR HR : List (String × ℚ)) (ts : ℕ) (dsd : List (String × ℕ))
        (o : ArbitrageOpportunity),
      o ∈ calculateOpportunitiesFromRates LR HR ts (some dsd) →
      o.dataStartDate = jsMapGet dsd o.symbol) := by
  constructor
  · intro startTime endTime acc symbol hlRaw ltRaw hhl hlt
    refine ⟨?_, le_max_left _ _, le_max_right _ _⟩
    simp only [processSymbolRates]
    split_ifs with h1 h2
    · simp only [updateEarliest_none, updateEarliest_some]
      exact jsMapGet_jsMapSet_self ..
    · exact absurd hlt (by simp_all [List.length_pos])
    · exact absurd hhl (by simp_all [List.length_pos])
    · exact absurd hhl (by simp_all [List.length_pos])
  · intro LR HR ts dsd o h
    rcases mem_calculateOpportunitiesFromRates h with ⟨e, _, hemit⟩
    rcases emitFromRates_shape hemit with ⟨q, _, rfl⟩
    rw [chooseDirection_dataStartDate, chooseDirection_symbol]
    rfl

/-- C7 witness: the first half applied at one Hyperliquid entry (timestamp
3) and one Lighter entry (timestamp 5); the recorded start date is
max(3, 5) = 5, the later of the two venues' first data points. -/
theorem C7_witness :
    filterWindow 1 10 [⟨"AAA", Exchange.hyperliquid, 1, 3, 1⟩] ≠ []
    ∧ filterWindow 1 10 [⟨"AAA", Exchange.lighter, 1, 5, 8⟩] ≠ []
    ∧ (jsMapGet (processSymbolRates 1 10 ⟨[], [], []⟩ "AAA"
          (some ([⟨"AAA", Exchange.hyperliquid, 1, 3, 1⟩],
                 [⟨"AAA", Exchange.lighter, 1, 5, 8⟩]))).dataStartDates "AAA"
        = some (max (minTimestamp (filterWindow 1 10 [⟨"AAA", Exchange.hyperliquid, 1, 3, 1⟩]))
                    (minTimestamp (filterWindow 1 10 [⟨"AAA", Exchange.lighter, 1, 5, 8⟩])))
      ∧ minTimestamp (filterWindow 1 10 [⟨"AAA", Exchange.hyperliquid, 1, 3, 1⟩])
          ≤ max (minTimestamp (filterWindow 1 10 [⟨"AAA", Exchange.hyperliquid, 1, 3, 1⟩]))
                (minTimestamp (filterWindow 1 10 [⟨"AAA", Exchange.lighter, 1, 5, 8⟩]))
      ∧ minTimestamp (filterWindow 1 10 [⟨"AAA", Exchange.lighter, 1, 5, 8⟩])
          ≤ max (minTimestamp (filterWindow 1 10 [⟨"AAA", Exchange.hyperliquid, 1, 3, 1⟩]))
                (minTimestamp (filterWindow 1 10 [⟨"AAA", Exchange.lighter, 1, 5, 8⟩]))) :=
  ⟨by decide, by decide,
   C7_dataStartDate.1 1 10 ⟨[], [], []⟩ "AAA"
     [⟨"AAA", Exchange.hyperliquid, 1, 3, 1⟩]
     [⟨"AAA", Exchange.lighter, 1, 5, 8⟩] (by decide) (by decide)⟩

end DN
